import Mathlib

/-!
Verification of the HTTP message layer of the `webserver` repository
(`src/http.rs`): request parsing (tokenizer + assembler) and response
rendering.

Rust strings are modelled as lists of Unicode scalar values (`List Char`).
Byte indices into request text coincide with character indices for the
ASCII inputs the protocol layer deals in, so slicing such as
`&full_version[5..]` is modelled as `List.drop 5`.

The Rust source signals every malformed-input condition by aborting
(`panic!` / `expect`).  Following the repository's own error taxonomy
(spec §7/§9, which maps each abort site to a typed error kind), the
embedding makes those exits explicit: each function returns
`Except ParseError _`, and each abort site returns the corresponding
`ParseError` value:

* `panic!("Empty request input!")`                  ↦ `EmptyRequest`
* `parts[1]` / `parts[2]` out-of-bounds indexing    ↦ `MalformedRequestLine`
* `&full_version[5..]` out-of-bounds slice          ↦ `MalformedVersion`
* `line.find(":").expect("No colon found …")`       ↦ `MalformedHeaderLine`
* `tokens_iterator.next().expect("Expecting a value for header …")`
                                                    ↦ `DanglingHeaderName`
* `expect("No more tokens …")` / `panic!("Should not happen!")`
                                                    ↦ `InternalConsistencyViolation`
-/

namespace Webserver

/-- Rust strings modelled as sequences of Unicode scalar values. -/
abbrev Str := List Char

/-- Embed a Lean string literal as a `Str`. -/
def strL (s : String) : Str := s.toList

/-- Rust `char::is_whitespace`: the Unicode `White_Space` property. -/
def char_is_whitespace (c : Char) : Bool :=
  c.toNat == 0x09 || c.toNat == 0x0A || c.toNat == 0x0B || c.toNat == 0x0C ||
  c.toNat == 0x0D || c.toNat == 0x20 || c.toNat == 0x85 || c.toNat == 0xA0 ||
  c.toNat == 0x1680 || (0x2000 ≤ c.toNat && c.toNat ≤ 0x200A) ||
  c.toNat == 0x2028 || c.toNat == 0x2029 || c.toNat == 0x202F ||
  c.toNat == 0x205F || c.toNat == 0x3000

/-- Rust `str::trim`: remove leading and trailing whitespace. -/
def str_trim (s : Str) : Str :=
  ((s.dropWhile char_is_whitespace).reverse.dropWhile char_is_whitespace).reverse

/-- Rust `line.split(" ")`: split on every single space, keeping empty pieces. -/
def split_on_space : Str → List Str
  | [] => [[]]
  | c :: rest =>
    if c = ' ' then [] :: split_on_space rest
    else
      match split_on_space rest with
      | [] => [[c]]
      | g :: gs => (c :: g) :: gs

/-- Rust `input.split("\r\n")`: split on every occurrence of CRLF,
scanning left to right, keeping empty pieces. -/
def split_on_crlf : Str → List Str
  | [] => [[]]
  | [c] => [[c]]
  | c :: d :: rest =>
    if c = '\r' ∧ d = '\n' then
      [] :: split_on_crlf rest
    else
      match split_on_crlf (d :: rest) with
      | [] => [[c]]
      | g :: gs => (c :: g) :: gs

/-- Rust `line.find(":")`: index of the first colon, if any. -/
def find_colon : Str → Option Nat
  | [] => none
  | c :: rest => if c = ':' then some 0 else (find_colon rest).map (· + 1)

/-- The request value produced by parsing (`struct Request`). -/
structure Request where
  method : Str
  url : Str
  version : Str
  host : Str
  user_agent : Str
  accept : Str
  upgrade_insecure_requests : Str
  accept_language : Str
  accept_encoding : Str
  cookie : Str
  connection : Str
  referer : Str
  cache_control : Str
deriving DecidableEq

/-- The mutable builder used while assembling a request (`struct RequestBuilder`). -/
structure RequestBuilder where
  method : Str
  url : Str
  version : Str
  host : Str
  user_agent : Str
  accept : Str
  upgrade_insecure_requests : Str
  accept_language : Str
  accept_encoding : Str
  cookie : Str
  connection : Str
  referer : Str
  cache_control : Str
deriving DecidableEq

/-- `RequestBuilder::new()`: every field starts as the empty string. -/
def RequestBuilder.new : RequestBuilder :=
  ⟨[], [], [], [], [], [], [], [], [], [], [], [], []⟩

/-- `RequestBuilder::create()`: freeze the builder into a `Request`. -/
def RequestBuilder.create (b : RequestBuilder) : Request :=
  ⟨b.method, b.url, b.version, b.host, b.user_agent, b.accept,
    b.upgrade_insecure_requests, b.accept_language, b.accept_encoding,
    b.cookie, b.connection, b.referer, b.cache_control⟩

def RequestBuilder.with_method (b : RequestBuilder) (v : Str) : RequestBuilder :=
  { b with method := v }

def RequestBuilder.with_url (b : RequestBuilder) (v : Str) : RequestBuilder :=
  { b with url := v }

def RequestBuilder.with_version (b : RequestBuilder) (v : Str) : RequestBuilder :=
  { b with version := v }

def RequestBuilder.with_host (b : RequestBuilder) (v : Str) : RequestBuilder :=
  { b with host := v }

def RequestBuilder.with_user_agent (b : RequestBuilder) (v : Str) : RequestBuilder :=
  { b with user_agent := v }

def RequestBuilder.with_accept (b : RequestBuilder) (v : Str) : RequestBuilder :=
  { b with accept := v }

def RequestBuilder.with_accept_language (b : RequestBuilder) (v : Str) : RequestBuilder :=
  { b with accept_language := v }

def RequestBuilder.with_accept_encoding (b : RequestBuilder) (v : Str) : RequestBuilder :=
  { b with accept_encoding := v }

def RequestBuilder.with_cookie (b : RequestBuilder) (v : Str) : RequestBuilder :=
  { b with cookie := v }

def RequestBuilder.with_connection (b : RequestBuilder) (v : Str) : RequestBuilder :=
  { b with connection := v }

def RequestBuilder.with_upgrade_insecure_requests (b : RequestBuilder) (v : Str) : RequestBuilder :=
  { b with upgrade_insecure_requests := v }

def RequestBuilder.with_referer (b : RequestBuilder) (v : Str) : RequestBuilder :=
  { b with referer := v }

def RequestBuilder.with_cache_control (b : RequestBuilder) (v : Str) : RequestBuilder :=
  { b with cache_control := v }

/-- `enum Status`: the closed set of supported response statuses. -/
inductive Status where
  | Ok
  | NotFound
  | MethodNotAllowed
deriving DecidableEq

/-- `impl fmt::Display for Status`. -/
def Status.display : Status → Str
  | Status.Ok => strL "200 OK"
  | Status.NotFound => strL "404 NOT FOUND"
  | Status.MethodNotAllowed => strL "405 METHOD NOT ALLOWED"

/-- `enum ResponseHeader`: the closed set of supported response headers. -/
inductive ResponseHeader where
  | Allow (value : Str)
  | Server (value : Str)
  | AcceptRanges (value : Str)
  | ContentType (value : Str)
  | ContentLength (value : Nat)
  | Date (value : Str)
deriving DecidableEq

/-- `impl fmt::Display for ResponseHeader`. -/
def ResponseHeader.display : ResponseHeader → Str
  | ResponseHeader.Allow value => strL "Allow: " ++ value
  | ResponseHeader.Server value => strL "Server: " ++ value
  | ResponseHeader.AcceptRanges value => strL "Accept-Ranges: " ++ value
  | ResponseHeader.ContentType value => strL "Content-Type: " ++ value
  | ResponseHeader.ContentLength value => strL "Content-Length: " ++ strL (Nat.repr value)
  | ResponseHeader.Date value => strL "Date: " ++ value

/-- `struct Response`.  The body byte vector is modelled, like all text,
as a sequence of scalar values. -/
structure Response where
  version : Str
  status : Status
  headers : List ResponseHeader
  body : Str
deriving DecidableEq

/-- `Response::new`: a response starts with no headers. -/
def Response.new (version : Str) (status : Status) (body : Str) : Response :=
  ⟨version, status, [], body⟩

/-- `Response::render`: status line, then each header followed by CRLF,
then a blank line, then the body, accumulated into one buffer. -/
def Response.render (r : Response) : Str :=
  let first_line := strL "HTTP/" ++ r.version ++ strL " " ++ r.status.display ++ strL "\r\n"
  let with_headers :=
    r.headers.foldl (fun buffer h => buffer ++ h.display ++ strL "\r\n") first_line
  with_headers ++ strL "\r\n" ++ r.body

/-- `Response::add_header`: append one header to the emission sequence. -/
def Response.add_header (r : Response) (h : ResponseHeader) : Response :=
  { r with headers := r.headers ++ [h] }

/-- `enum RequestToken`: structural tokens produced by the scanner. -/
inductive RequestToken where
  | Method (text : Str)
  | Url (text : Str)
  | Version (text : Str)
  | HeaderName (text : Str)
  | HeaderValue (text : Str)
  | EndOfText
deriving DecidableEq

/-- The error taxonomy of spec §7, one kind per abort site of the source
(see the module docstring for the mapping). -/
inductive ParseError where
  | EmptyRequest
  | MalformedRequestLine
  | MalformedVersion
  | MalformedHeaderLine
  | DanglingHeaderName (name : Str)
  | InternalConsistencyViolation
deriving DecidableEq

/-- `split_lines`: trim the whole input, then split on CRLF. -/
def split_lines (input : Str) : List Str :=
  split_on_crlf (str_trim input)

/-- `parse_first_line`: split the request line on single spaces; the
first three pieces become method, URL and full version; the version is
the full version with its first five characters removed.  Indexing
`parts[1]`/`parts[2]` out of bounds is `MalformedRequestLine`; slicing
`full_version[5..]` out of bounds is `MalformedVersion`. -/
def parse_first_line (line : Str) : Except ParseError (RequestToken × RequestToken × RequestToken) :=
  match split_on_space line with
  | p0 :: p1 :: p2 :: _ =>
    let method := str_trim p0
    let url := str_trim p1
    let full_version := str_trim p2
    if full_version.length < 5 then
      Except.error ParseError.MalformedVersion
    else
      Except.ok (RequestToken.Method method, RequestToken.Url url,
        RequestToken.Version (full_version.drop 5))
  | _ => Except.error ParseError.MalformedRequestLine

/-- `parse_non_first_line`: split a header line at its first colon; name
and value are trimmed.  A line without a colon is `MalformedHeaderLine`. -/
def parse_non_first_line (line : Str) : Except ParseError (RequestToken × RequestToken) :=
  match find_colon line with
  | none => Except.error ParseError.MalformedHeaderLine
  | some colon_position =>
    Except.ok (RequestToken.HeaderName (str_trim (line.take colon_position)),
      RequestToken.HeaderValue (str_trim (line.drop (colon_position + 1))))

/-- The header-line half of `scan_request`: every line after the first
contributes a `HeaderName`/`HeaderValue` pair. -/
def scan_header_lines : List Str → Except ParseError (List RequestToken)
  | [] => Except.ok []
  | line :: rest =>
    match parse_non_first_line line with
    | Except.error e => Except.error e
    | Except.ok (name, value) =>
      match scan_header_lines rest with
      | Except.error e => Except.error e
      | Except.ok tokens => Except.ok (name :: value :: tokens)

/-- `scan_request`: the first line yields the three request-line tokens,
each later line a header pair, and a final `EndOfText` sentinel. -/
def scan_request (request : Str) : Except ParseError (List RequestToken) :=
  match split_lines request with
  | [] => Except.ok [RequestToken.EndOfText]
  | first :: rest =>
    match parse_first_line first with
    | Except.error e => Except.error e
    | Except.ok (method, uri, version) =>
      match scan_header_lines rest with
      | Except.error e => Except.error e
      | Except.ok tokens =>
        Except.ok (method :: uri :: version :: (tokens ++ [RequestToken.EndOfText]))

/-- The header-name dispatch inside `parse_request`'s loop: a matching
name assigns the corresponding builder field; a non-matching name is
logged and discarded, leaving the builder unchanged. -/
def apply_header (name value : Str) (b : RequestBuilder) : RequestBuilder :=
  if name = strL "Host" then b.with_host value
  else if name = strL "User-Agent" then b.with_user_agent value
  else if name = strL "Accept" then b.with_accept value
  else if name = strL "Accept-Language" then b.with_accept_language value
  else if name = strL "Accept-Encoding" then b.with_accept_encoding value
  else if name = strL "Cookie" then b.with_cookie value
  else if name = strL "Connection" then b.with_connection value
  else if name = strL "Upgrade-Insecure-Requests" then b.with_upgrade_insecure_requests value
  else if name = strL "Referer" then b.with_referer value
  else if name = strL "Cache-Control" then b.with_cache_control value
  else b

/-- The token-consuming loop of `parse_request`.  A `HeaderName` token
consumes the following token; if the stream is exhausted there, the
`expect` abort is `DanglingHeaderName`, and if the consumed token is not
a `HeaderValue` it is silently skipped.  Running out of tokens at the
top of the loop or meeting a stray `HeaderValue` is the
`InternalConsistencyViolation` abort ("Should not happen!"). -/
def assemble : List RequestToken → RequestBuilder → Except ParseError Request
  | [], _ => Except.error ParseError.InternalConsistencyViolation
  | RequestToken.Method m :: rest, b => assemble rest (b.with_method m)
  | RequestToken.Url u :: rest, b => assemble rest (b.with_url u)
  | RequestToken.Version v :: rest, b => assemble rest (b.with_version v)
  | [RequestToken.HeaderName name], _ => Except.error (ParseError.DanglingHeaderName name)
  | RequestToken.HeaderName name :: t :: rest, b =>
    (match t with
     | RequestToken.HeaderValue value => assemble rest (apply_header name value b)
     | _ => assemble rest b)
  | RequestToken.HeaderValue _ :: _, _ => Except.error ParseError.InternalConsistencyViolation
  | RequestToken.EndOfText :: _, b => Except.ok b.create

/-- `parse_request`: empty input aborts with `EmptyRequest`; otherwise
the input is scanned into tokens and the tokens are assembled into a
`Request` starting from a fresh builder. -/
def parse_request (request : Str) : Except ParseError Request :=
  if request = [] then Except.error ParseError.EmptyRequest
  else
    match scan_request request with
    | Except.error e => Except.error e
    | Except.ok tokens => assemble tokens RequestBuilder.new

/-! Verification-side definitions. -/

instance {ε α : Type} [DecidableEq ε] [DecidableEq α] : DecidableEq (Except ε α) := fun x y =>
  match x, y with
  | Except.ok a, Except.ok b =>
    if h : a = b then Decidable.isTrue (by rw [h]) else Decidable.isFalse (by simp [h])
  | Except.error a, Except.error b =>
    if h : a = b then Decidable.isTrue (by rw [h]) else Decidable.isFalse (by simp [h])
  | Except.ok _, Except.error _ => Decidable.isFalse (by simp)
  | Except.error _, Except.ok _ => Decidable.isFalse (by simp)

/-- The ten header names the assembler recognizes, in dispatch order. -/
def recognized_header_names : List Str :=
  [strL "Host", strL "User-Agent", strL "Accept", strL "Accept-Language",
    strL "Accept-Encoding", strL "Cookie", strL "Connection",
    strL "Upgrade-Insecure-Requests", strL "Referer", strL "Cache-Control"]

/-- The builder field the assembler assigns for a recognized header name
(the empty string for unrecognized names). -/
def field_for (n : Str) (b : RequestBuilder) : Str :=
  if n = strL "Host" then b.host
  else if n = strL "User-Agent" then b.user_agent
  else if n = strL "Accept" then b.accept
  else if n = strL "Accept-Language" then b.accept_language
  else if n = strL "Accept-Encoding" then b.accept_encoding
  else if n = strL "Cookie" then b.cookie
  else if n = strL "Connection" then b.connection
  else if n = strL "Upgrade-Insecure-Requests" then b.upgrade_insecure_requests
  else if n = strL "Referer" then b.referer
  else if n = strL "Cache-Control" then b.cache_control
  else []

/-- Fold a list of header-name/header-value token pairs into the builder,
exactly as the assembler loop does on a well-formed token stream. -/
def apply_pairs : List RequestToken → RequestBuilder → RequestBuilder
  | RequestToken.HeaderName n :: RequestToken.HeaderValue v :: rest, b =>
    apply_pairs rest (apply_header n v b)
  | _, b => b

/-- Token lists made of consecutive `HeaderName`/`HeaderValue` pairs,
the shape the scanner produces for the header section. -/
inductive HeaderPairs : List RequestToken → Prop where
  | nil : HeaderPairs []
  | cons (n v : Str) {rest : List RequestToken} : HeaderPairs rest →
    HeaderPairs (RequestToken.HeaderName n :: RequestToken.HeaderValue v :: rest)

/-- The string is empty, or is the exact trimmed value of one of the
given header lines. -/
def from_line_value (ls : List Str) (x : Str) : Prop :=
  x = [] ∨ ∃ line ∈ ls, ∃ nm,
    parse_non_first_line line = Except.ok (RequestToken.HeaderName nm, RequestToken.HeaderValue x)

/-- `P` holds of all ten header fields of the builder. -/
def header_fields_ok (P : Str → Prop) (b : RequestBuilder) : Prop :=
  P b.host ∧ P b.user_agent ∧ P b.accept ∧ P b.upgrade_insecure_requests ∧
    P b.accept_language ∧ P b.accept_encoding ∧ P b.cookie ∧ P b.connection ∧
    P b.referer ∧ P b.cache_control

/-- Modelled from the spec (§3, §4.3): the status's literal
code-and-reason text, as the claim spells it out. -/
def status_text_spec : Status → Str
  | Status.Ok => strL "200 OK"
  | Status.NotFound => strL "404 NOT FOUND"
  | Status.MethodNotAllowed => strL "405 METHOD NOT ALLOWED"

/-- Modelled from the spec (§4.3): the rendering contract stated as a
single concatenation — status line, each header display followed by
CRLF in insertion order, one blank line, then the body verbatim. -/
def render_spec (r : Response) : Str :=
  (strL "HTTP/" ++ r.version ++ strL " " ++ status_text_spec r.status ++ strL "\r\n")
    ++ (r.headers.map (fun h => h.display ++ strL "\r\n")).flatten
    ++ strL "\r\n" ++ r.body

/-! Basic lemmas about the string helpers. -/

theorem split_on_space_ne_nil (s : Str) : split_on_space s ≠ [] := by
  induction s with
  | nil => simp [split_on_space]
  | cons c rest ih =>
    simp only [split_on_space]
    split
    · simp
    · cases h : split_on_space rest with
      | nil => simp
      | cons g gs => simp

theorem split_on_crlf_ne_nil (s : Str) : split_on_crlf s ≠ [] := by
  match s with
  | [] => simp [split_on_crlf]
  | [c] => simp [split_on_crlf]
  | c :: d :: rest =>
    simp only [split_on_crlf]
    split
    · simp
    · cases hs : split_on_crlf (d :: rest) <;> simp [hs]

theorem split_on_space_cons_of_ne {c : Char} (rest : Str) (hc : c ≠ ' ') :
    ∃ g gs, split_on_space (c :: rest) = (c :: g) :: gs := by
  simp only [split_on_space, if_neg hc]
  cases hs : split_on_space rest with
  | nil => exact absurd hs (split_on_space_ne_nil rest)
  | cons g gs => exact ⟨g, gs, rfl⟩

theorem split_on_crlf_cons_of_ne {c : Char} (rest : Str) (hc : c ≠ '\r') :
    ∃ g gs, split_on_crlf (c :: rest) = (c :: g) :: gs := by
  cases rest with
  | nil => exact ⟨[], [], rfl⟩
  | cons d rest2 =>
    have hcond : ¬ (c = '\r' ∧ d = '\n') := fun h => hc h.1
    simp only [split_on_crlf, if_neg hcond]
    cases hs : split_on_crlf (d :: rest2) with
    | nil => exact absurd hs (split_on_crlf_ne_nil (d :: rest2))
    | cons g gs => exact ⟨g, gs, rfl⟩

theorem dropWhile_eq_cons_head_false {p : Char → Bool} {l t : Str} {c : Char}
    (h : l.dropWhile p = c :: t) : p c = false := by
  induction l with
  | nil => simp at h
  | cons x xs ih =>
    by_cases hx : p x
    · rw [List.dropWhile_cons_of_pos hx] at h
      exact ih h
    · rw [List.dropWhile_cons_of_neg hx] at h
      cases h
      exact Bool.of_not_eq_true hx

theorem str_trim_eq_rdrop (s : Str) :
    str_trim s = List.rdropWhile char_is_whitespace (s.dropWhile char_is_whitespace) := by
  rfl

theorem str_trim_head_false {s t : Str} {c : Char} (h : str_trim s = c :: t) :
    char_is_whitespace c = false := by
  rw [str_trim_eq_rdrop] at h
  obtain ⟨u, hu⟩ := (List.rdropWhile_prefix char_is_whitespace
    (s.dropWhile char_is_whitespace))
  rw [h] at hu
  exact dropWhile_eq_cons_head_false (l := s) hu.symm

theorem str_trim_cons_ne_nil {c : Char} (t : Str) (hc : char_is_whitespace c = false) :
    str_trim (c :: t) ≠ [] := by
  rw [str_trim_eq_rdrop]
  rw [List.dropWhile_cons_of_neg (by simp [hc])]
  intro hnil
  have := List.rdropWhile_eq_nil_iff.mp hnil c (by simp)
  rw [hc] at this
  exact Bool.false_ne_true this

theorem str_trim_of_all_ws {s : Str} (h : ∀ c ∈ s, char_is_whitespace c = true) :
    str_trim s = [] := by
  rw [str_trim_eq_rdrop]
  have h1 : s.dropWhile char_is_whitespace = [] :=
    List.dropWhile_eq_nil_iff.mpr (fun x hx => h x hx)
  rw [h1]
  simp

/-! Lemmas about colon search. -/

theorem find_colon_eq_none {line : Str} (h : ∀ c ∈ line, c ≠ ':') :
    find_colon line = none := by
  induction line with
  | nil => rfl
  | cons c rest ih =>
    have hc : c ≠ ':' := h c (by simp)
    simp only [find_colon, if_neg hc]
    rw [ih (fun x hx => h x (by simp [hx]))]
    rfl

theorem find_colon_append {pre post : Str} (h : ∀ c ∈ pre, c ≠ ':') :
    find_colon (pre ++ ':' :: post) = some pre.length := by
  induction pre with
  | nil => simp [find_colon]
  | cons c rest ih =>
    have hc : c ≠ ':' := h c (by simp)
    simp only [List.cons_append, find_colon, if_neg hc, List.append_eq]
    rw [ih (fun x hx => h x (by simp [hx]))]
    simp

/-! Shape and error lemmas for the line parsers. -/

theorem parse_first_line_ok_shape {line : Str}
    {t : RequestToken × RequestToken × RequestToken}
    (h : parse_first_line line = Except.ok t) :
    ∃ m u v, t = (RequestToken.Method m, RequestToken.Url u, RequestToken.Version v) := by
  unfold parse_first_line at h
  split at h
  · dsimp only at h
    split at h
    · exact absurd h (by simp)
    · exact ⟨_, _, _, (Except.ok.injEq _ _ ▸ h.symm : _)⟩
  · exact absurd h (by simp)

theorem parse_first_line_error {line : Str} {e : ParseError}
    (h : parse_first_line line = Except.error e) :
    e = ParseError.MalformedRequestLine ∨ e = ParseError.MalformedVersion := by
  unfold parse_first_line at h
  split at h
  · dsimp only at h
    split at h
    · right; cases h; rfl
    · exact absurd h (by simp)
  · left; cases h; rfl

theorem parse_non_first_line_ok_shape {line : Str} {t : RequestToken × RequestToken}
    (h : parse_non_first_line line = Except.ok t) :
    ∃ n v, t = (RequestToken.HeaderName n, RequestToken.HeaderValue v) := by
  unfold parse_non_first_line at h
  split at h
  · exact absurd h (by simp)
  · exact ⟨_, _, (Except.ok.injEq _ _ ▸ h.symm : _)⟩

theorem parse_non_first_line_error {line : Str} {e : ParseError}
    (h : parse_non_first_line line = Except.error e) :
    e = ParseError.MalformedHeaderLine := by
  unfold parse_non_first_line at h
  split at h
  · cases h; rfl
  · exact absurd h (by simp)

/-! Lemmas about the header-section scanner. -/

theorem scan_header_lines_error {ls : List Str} {e : ParseError}
    (h : scan_header_lines ls = Except.error e) :
    e = ParseError.MalformedHeaderLine := by
  induction ls with
  | nil => exact absurd h (by simp [scan_header_lines])
  | cons line rest ih =>
    unfold scan_header_lines at h
    cases hp : parse_non_first_line line with
    | error e2 =>
      rw [hp] at h
      cases h
      exact parse_non_first_line_error hp
    | ok t =>
      obtain ⟨n, v, rfl⟩ := parse_non_first_line_ok_shape hp
      rw [hp] at h
      cases hs : scan_header_lines rest with
      | error e3 =>
        rw [hs] at h
        cases h
        exact ih hs
      | ok tokens =>
        rw [hs] at h
        exact absurd h (by simp)

theorem scan_header_lines_pairs {ls : List Str} {ts : List RequestToken}
    (h : scan_header_lines ls = Except.ok ts) : HeaderPairs ts := by
  induction ls generalizing ts with
  | nil =>
    simp only [scan_header_lines] at h
    cases h
    exact HeaderPairs.nil
  | cons line rest ih =>
    unfold scan_header_lines at h
    cases hp : parse_non_first_line line with
    | error e2 => rw [hp] at h; exact absurd h (by simp)
    | ok t =>
      obtain ⟨n, v, rfl⟩ := parse_non_first_line_ok_shape hp
      rw [hp] at h
      cases hs : scan_header_lines rest with
      | error e3 => rw [hs] at h; exact absurd h (by simp)
      | ok tokens =>
        rw [hs] at h
        cases h
        exact HeaderPairs.cons n v (ih hs)

theorem scan_header_lines_append (xs ys : List Str) :
    scan_header_lines (xs ++ ys) =
      match scan_header_lines xs with
      | Except.error e => Except.error e
      | Except.ok a =>
        match scan_header_lines ys with
        | Except.error e => Except.error e
        | Except.ok b => Except.ok (a ++ b) := by
  induction xs with
  | nil =>
    simp only [List.nil_append, scan_header_lines]
    cases scan_header_lines ys <;> rfl
  | cons line rest ih =>
    have step : ∀ zs, scan_header_lines (line :: zs) =
        match parse_non_first_line line with
        | Except.error e => Except.error e
        | Except.ok (name, value) =>
          match scan_header_lines zs with
          | Except.error e => Except.error e
          | Except.ok tokens => Except.ok (name :: value :: tokens) := fun zs => rfl
    rw [List.cons_append, step, step, ih]
    cases hp : parse_non_first_line line with
    | error e2 => rfl
    | ok t =>
      obtain ⟨n, v, rfl⟩ := parse_non_first_line_ok_shape hp
      cases hr : scan_header_lines rest with
      | error e3 => rfl
      | ok a =>
        cases hy : scan_header_lines ys with
        | error e4 => rfl
        | ok b => rfl

theorem scan_header_lines_name_src {ls : List Str} {ts : List RequestToken} {m : Str}
    (h : scan_header_lines ls = Except.ok ts) (hm : RequestToken.HeaderName m ∈ ts) :
    ∃ line ∈ ls, ∃ v, parse_non_first_line line =
      Except.ok (RequestToken.HeaderName m, RequestToken.HeaderValue v) := by
  induction ls generalizing ts with
  | nil =>
    simp only [scan_header_lines] at h
    cases h
    simp at hm
  | cons line rest ih =>
    unfold scan_header_lines at h
    cases hp : parse_non_first_line line with
    | error e2 => rw [hp] at h; exact absurd h (by simp)
    | ok t =>
      obtain ⟨n, v, rfl⟩ := parse_non_first_line_ok_shape hp
      rw [hp] at h
      cases hs : scan_header_lines rest with
      | error e3 => rw [hs] at h; exact absurd h (by simp)
      | ok tokens =>
        rw [hs] at h
        cases h
        rcases List.mem_cons.mp hm with hm1 | hm2
        · cases hm1
          exact ⟨line, by simp, v, hp⟩
        · rcases List.mem_cons.mp hm2 with hm3 | hm4
          · exact absurd hm3 (by simp)
          · obtain ⟨line2, hline2, v2, hpv⟩ := ih hs hm4
            exact ⟨line2, by simp [hline2], v2, hpv⟩

theorem scan_header_lines_value_src {ls : List Str} {ts : List RequestToken} {w : Str}
    (h : scan_header_lines ls = Except.ok ts) (hw : RequestToken.HeaderValue w ∈ ts) :
    ∃ line ∈ ls, ∃ nm, parse_non_first_line line =
      Except.ok (RequestToken.HeaderName nm, RequestToken.HeaderValue w) := by
  induction ls generalizing ts with
  | nil =>
    simp only [scan_header_lines] at h
    cases h
    simp at hw
  | cons line rest ih =>
    unfold scan_header_lines at h
    cases hp : parse_non_first_line line with
    | error e2 => rw [hp] at h; exact absurd h (by simp)
    | ok t =>
      obtain ⟨n, v, rfl⟩ := parse_non_first_line_ok_shape hp
      rw [hp] at h
      cases hs : scan_header_lines rest with
      | error e3 => rw [hs] at h; exact absurd h (by simp)
      | ok tokens =>
        rw [hs] at h
        cases h
        rcases List.mem_cons.mp hw with hw1 | hw2
        · exact absurd hw1 (by simp)
        · rcases List.mem_cons.mp hw2 with hw3 | hw4
          · cases hw3
            exact ⟨line, by simp, n, hp⟩
          · obtain ⟨line2, hline2, nm2, hpv⟩ := ih hs hw4
            exact ⟨line2, by simp [hline2], nm2, hpv⟩

/-! Lemmas about the assembler. -/

theorem assemble_pairs_append {ts : List RequestToken} (hp : HeaderPairs ts)
    (rest : List RequestToken) (b : RequestBuilder) :
    assemble (ts ++ rest) b = assemble rest (apply_pairs ts b) := by
  induction hp generalizing b with
  | nil => rfl
  | cons n v h ih => exact ih (apply_header n v b)

theorem apply_pairs_append {ts us : List RequestToken} (hp : HeaderPairs ts)
    (b : RequestBuilder) :
    apply_pairs (ts ++ us) b = apply_pairs us (apply_pairs ts b) := by
  induction hp generalizing b with
  | nil => rfl
  | cons n v h ih => exact ih (apply_header n v b)

theorem apply_header_unmatched {n : Str} (v : Str) (b : RequestBuilder)
    (h : n ∉ recognized_header_names) : apply_header n v b = b := by
  simp only [recognized_header_names, List.mem_cons, List.not_mem_nil, or_false,
    not_or] at h
  obtain ⟨h1, h2, h3, h4, h5, h6, h7, h8, h9, h10⟩ := h
  unfold apply_header
  rw [if_neg h1, if_neg h2, if_neg h3, if_neg h4, if_neg h5, if_neg h6, if_neg h7,
    if_neg h8, if_neg h9, if_neg h10]

theorem mem_recognized_cases {n : Str} (hn : n ∈ recognized_header_names) :
    n = strL "Host" ∨ n = strL "User-Agent" ∨ n = strL "Accept" ∨
    n = strL "Accept-Language" ∨ n = strL "Accept-Encoding" ∨ n = strL "Cookie" ∨
    n = strL "Connection" ∨ n = strL "Upgrade-Insecure-Requests" ∨
    n = strL "Referer" ∨ n = strL "Cache-Control" := by
  simpa only [recognized_header_names, List.mem_cons, List.not_mem_nil, or_false]
    using hn

theorem apply_header_method (n v : Str) (b : RequestBuilder) :
    (apply_header n v b).method = b.method := by
  by_cases hn : n ∈ recognized_header_names
  · rcases mem_recognized_cases hn with rfl | rfl | rfl | rfl | rfl | rfl | rfl | rfl | rfl | rfl <;> rfl
  · rw [apply_header_unmatched v b hn]

theorem apply_header_url (n v : Str) (b : RequestBuilder) :
    (apply_header n v b).url = b.url := by
  by_cases hn : n ∈ recognized_header_names
  · rcases mem_recognized_cases hn with rfl | rfl | rfl | rfl | rfl | rfl | rfl | rfl | rfl | rfl <;> rfl
  · rw [apply_header_unmatched v b hn]

theorem apply_header_version (n v : Str) (b : RequestBuilder) :
    (apply_header n v b).version = b.version := by
  by_cases hn : n ∈ recognized_header_names
  · rcases mem_recognized_cases hn with rfl | rfl | rfl | rfl | rfl | rfl | rfl | rfl | rfl | rfl <;> rfl
  · rw [apply_header_unmatched v b hn]

theorem apply_pairs_method {ts : List RequestToken} (hp : HeaderPairs ts)
    (b : RequestBuilder) : (apply_pairs ts b).method = b.method := by
  induction hp generalizing b with
  | nil => rfl
  | cons n v h ih => exact (ih (apply_header n v b)).trans (apply_header_method n v b)

theorem apply_pairs_url {ts : List RequestToken} (hp : HeaderPairs ts)
    (b : RequestBuilder) : (apply_pairs ts b).url = b.url := by
  induction hp generalizing b with
  | nil => rfl
  | cons n v h ih => exact (ih (apply_header n v b)).trans (apply_header_url n v b)

theorem apply_pairs_version {ts : List RequestToken} (hp : HeaderPairs ts)
    (b : RequestBuilder) : (apply_pairs ts b).version = b.version := by
  induction hp generalizing b with
  | nil => rfl
  | cons n v h ih => exact (ih (apply_header n v b)).trans (apply_header_version n v b)

/-! Reduction lemmas for `parse_request`. -/

theorem parse_request_of_ne {s : Str} (hs : s ≠ []) :
    parse_request s =
      match scan_request s with
      | Except.error e => Except.error e
      | Except.ok tokens => assemble tokens RequestBuilder.new := by
  unfold parse_request
  rw [if_neg hs]

theorem scan_request_cons {s first : Str} {rest : List Str}
    (hl : split_lines s = first :: rest) :
    scan_request s =
      match parse_first_line first with
      | Except.error e => Except.error e
      | Except.ok (method, uri, version) =>
        match scan_header_lines rest with
        | Except.error e => Except.error e
        | Except.ok tokens =>
          Except.ok (method :: uri :: version :: (tokens ++ [RequestToken.EndOfText])) := by
  unfold scan_request
  rw [hl]

theorem split_lines_ne_nil (s : Str) : split_lines s ≠ [] :=
  split_on_crlf_ne_nil (str_trim s)

theorem parse_request_error_of_scan {s : Str} {e : ParseError} (hs : s ≠ [])
    (h : scan_request s = Except.error e) : parse_request s = Except.error e := by
  rw [parse_request_of_ne hs, h]

theorem scan_request_error_first {s first : Str} {rest : List Str} {e : ParseError}
    (hl : split_lines s = first :: rest) (hf : parse_first_line first = Except.error e) :
    scan_request s = Except.error e := by
  rw [scan_request_cons hl, hf]

theorem scan_request_error_hdrs {s first : Str} {rest : List Str} {m u v : Str}
    {e : ParseError} (hl : split_lines s = first :: rest)
    (hf : parse_first_line first =
      Except.ok (RequestToken.Method m, RequestToken.Url u, RequestToken.Version v))
    (hh : scan_header_lines rest = Except.error e) :
    scan_request s = Except.error e := by
  rw [scan_request_cons hl, hf]
  show (match scan_header_lines rest with
    | Except.error e => (Except.error e : Except ParseError (List RequestToken))
    | Except.ok tokens =>
      Except.ok (RequestToken.Method m :: RequestToken.Url u :: RequestToken.Version v ::
        (tokens ++ [RequestToken.EndOfText]))) = Except.error e
  rw [hh]

theorem parse_request_ok_eq {s first : Str} {rest : List Str} {m u v : Str}
    {hdrs : List RequestToken}
    (hs : s ≠ []) (hl : split_lines s = first :: rest)
    (hf : parse_first_line first =
      Except.ok (RequestToken.Method m, RequestToken.Url u, RequestToken.Version v))
    (hh : scan_header_lines rest = Except.ok hdrs) :
    parse_request s = Except.ok (RequestBuilder.create (apply_pairs hdrs
      (((RequestBuilder.new.with_method m).with_url u).with_version v))) := by
  have hsc : scan_request s = Except.ok (RequestToken.Method m :: RequestToken.Url u ::
      RequestToken.Version v :: (hdrs ++ [RequestToken.EndOfText])) := by
    rw [scan_request_cons hl, hf]
    show (match scan_header_lines rest with
      | Except.error e => (Except.error e : Except ParseError (List RequestToken))
      | Except.ok tokens =>
        Except.ok (RequestToken.Method m :: RequestToken.Url u :: RequestToken.Version v ::
          (tokens ++ [RequestToken.EndOfText]))) = _
    rw [hh]
  rw [parse_request_of_ne hs, hsc]
  show assemble (hdrs ++ [RequestToken.EndOfText])
      (((RequestBuilder.new.with_method m).with_url u).with_version v) = _
  rw [assemble_pairs_append (scan_header_lines_pairs hh)]
  rfl

theorem parse_request_ok_inv {s : Str} {r : Request} (h : parse_request s = Except.ok r) :
    s ≠ [] ∧ ∃ first rest m u v hdrs,
      split_lines s = first :: rest ∧
      parse_first_line first =
        Except.ok (RequestToken.Method m, RequestToken.Url u, RequestToken.Version v) ∧
      scan_header_lines rest = Except.ok hdrs ∧ HeaderPairs hdrs ∧
      r = RequestBuilder.create (apply_pairs hdrs
        (((RequestBuilder.new.with_method m).with_url u).with_version v)) := by
  have hs : s ≠ [] := by
    intro he
    rw [he] at h
    exact absurd h (by simp [parse_request])
  refine ⟨hs, ?_⟩
  obtain ⟨first, rest, hl⟩ := List.exists_cons_of_ne_nil (split_lines_ne_nil s)
  · cases hf : parse_first_line first with
    | error e =>
      rw [parse_request_error_of_scan hs (scan_request_error_first hl hf)] at h
      exact absurd h (by simp)
    | ok t =>
      obtain ⟨m, u, v, rfl⟩ := parse_first_line_ok_shape hf
      cases hh : scan_header_lines rest with
      | error e =>
        rw [parse_request_error_of_scan hs (scan_request_error_hdrs hl hf hh)] at h
        exact absurd h (by simp)
      | ok hdrs =>
        rw [parse_request_ok_eq hs hl hf hh] at h
        cases h
        exact ⟨first, rest, m, u, v, hdrs, hl, hf, hh, scan_header_lines_pairs hh, rfl⟩

/-! Classification of parse errors on non-empty input. -/

theorem parse_request_error_mem {s : Str} {e : ParseError} (hs : s ≠ [])
    (h : parse_request s = Except.error e) :
    e = ParseError.MalformedRequestLine ∨ e = ParseError.MalformedVersion ∨
    e = ParseError.MalformedHeaderLine := by
  obtain ⟨first, rest, hl⟩ := List.exists_cons_of_ne_nil (split_lines_ne_nil s)
  cases hf : parse_first_line first with
  | error e2 =>
    have heq : (Except.error e2 : Except ParseError Request) = Except.error e :=
      (parse_request_error_of_scan hs (scan_request_error_first hl hf)).symm.trans h
    cases heq
    rcases parse_first_line_error hf with rfl | rfl
    · exact Or.inl rfl
    · exact Or.inr (Or.inl rfl)
  | ok t =>
    obtain ⟨m, u, v, rfl⟩ := parse_first_line_ok_shape hf
    cases hh : scan_header_lines rest with
    | error e3 =>
      have heq : (Except.error e3 : Except ParseError Request) = Except.error e :=
        (parse_request_error_of_scan hs (scan_request_error_hdrs hl hf hh)).symm.trans h
      cases heq
      exact Or.inr (Or.inr (scan_header_lines_error hh))
    | ok hdrs =>
      rw [parse_request_ok_eq hs hl hf hh] at h
      exact absurd h (by simp)

/-! Characterization of the request-line parser by the split shape. -/

theorem parse_first_line_short {first : Str}
    (hlen : (split_on_space first).length < 3) :
    parse_first_line first = Except.error ParseError.MalformedRequestLine := by
  unfold parse_first_line
  rcases hsp : split_on_space first with _ | ⟨p0, _ | ⟨p1, _ | ⟨p2, ps⟩⟩⟩
  · rfl
  · rfl
  · rfl
  · rw [hsp] at hlen
    exact absurd hlen (by simp)

theorem parse_first_line_of_split {first p0 p1 p2 : Str} {ps : List Str}
    (hsp : split_on_space first = p0 :: p1 :: p2 :: ps) :
    parse_first_line first =
      if (str_trim p2).length < 5 then Except.error ParseError.MalformedVersion
      else
        Except.ok (RequestToken.Method (str_trim p0), RequestToken.Url (str_trim p1),
          RequestToken.Version ((str_trim p2).drop 5)) := by
  unfold parse_first_line
  rw [hsp]

/-! Rendering as one concatenation. -/

theorem render_foldl_eq (l : List ResponseHeader) (a : Str) :
    l.foldl (fun buffer h => buffer ++ h.display ++ strL "\r\n") a =
      a ++ (l.map (fun h => h.display ++ strL "\r\n")).flatten := by
  induction l generalizing a with
  | nil => simp
  | cons h t ih =>
    rw [List.foldl_cons, ih]
    simp [List.append_assoc]

/-! The claims. -/

/-- Claim C1: for every input string, `parse_request` either returns a
`Request` or signals one of the five enumerated client-input error kinds
(`EmptyRequest`, `MalformedRequestLine`, `MalformedVersion`,
`MalformedHeaderLine`, `DanglingHeaderName`); no input reaches the
internal-abort kind. -/
theorem claim_C1_parse_total (s : Str) :
    (∃ r, parse_request s = Except.ok r) ∨
    parse_request s = Except.error ParseError.EmptyRequest ∨
    parse_request s = Except.error ParseError.MalformedRequestLine ∨
    parse_request s = Except.error ParseError.MalformedVersion ∨
    parse_request s = Except.error ParseError.MalformedHeaderLine ∨
    (∃ nm, parse_request s = Except.error (ParseError.DanglingHeaderName nm)) := by
  by_cases hs : s = []
  · subst hs
    exact Or.inr (Or.inl rfl)
  · obtain ⟨first, rest, hl⟩ := List.exists_cons_of_ne_nil (split_lines_ne_nil s)
    cases hf : parse_first_line first with
    | error e =>
      have hpe := parse_request_error_of_scan hs (scan_request_error_first hl hf)
      rcases parse_first_line_error hf with rfl | rfl
      · exact Or.inr (Or.inr (Or.inl hpe))
      · exact Or.inr (Or.inr (Or.inr (Or.inl hpe)))
    | ok t =>
      obtain ⟨m, u, v, rfl⟩ := parse_first_line_ok_shape hf
      cases hh : scan_header_lines rest with
      | error e =>
        have hpe := parse_request_error_of_scan hs (scan_request_error_hdrs hl hf hh)
        rw [scan_header_lines_error hh] at hpe
        exact Or.inr (Or.inr (Or.inr (Or.inr (Or.inl hpe))))
      | ok hdrs =>
        exact Or.inl ⟨_, parse_request_ok_eq hs hl hf hh⟩

/-- Claim C4: rendering a response emits exactly the status line (with the
status's literal code-and-reason text), every header in insertion order
followed by CRLF, one blank line, and then the body verbatim — nothing
else, in particular no automatic Content-Length header. -/
theorem claim_C4_render_exact (r : Response) : r.render = render_spec r := by
  show (r.headers.foldl (fun buffer h => buffer ++ h.display ++ strL "\r\n")
      (strL "HTTP/" ++ r.version ++ strL " " ++ r.status.display ++ strL "\r\n"))
      ++ strL "\r\n" ++ r.body = render_spec r
  unfold render_spec
  rw [render_foldl_eq]
  have hst : r.status.display = status_text_spec r.status := by
    cases r.status <;> rfl
  rw [hst]

/-- Claim C9: the example request parses to the stated `Request`:
method GET, url /foo, version 1.1, host localhost:8080 and every other
header field empty. -/
theorem claim_C9_example :
    parse_request (strL "GET /foo HTTP/1.1\r\nHost: localhost:8080\r\n\r\n") =
      Except.ok ⟨strL "GET", strL "/foo", strL "1.1", strL "localhost:8080",
        [], [], [], [], [], [], [], [], []⟩ := by
  decide

/-- Claim C5 counterexample: a whitespace-only (hence zero length after
trimming) input does not fail with `EmptyRequest` — the emptiness test
runs before trimming, so a single space reaches the request-line parser
and fails with `MalformedRequestLine`. -/
theorem claim_C5_counterexample :
    parse_request (strL " ") = Except.error ParseError.MalformedRequestLine := by
  decide

/-- Claim C5 (amended): parsing fails with `EmptyRequest` exactly when
the input itself has zero length (no trimming is applied first); a
non-empty whitespace-only input instead fails with
`MalformedRequestLine`. -/
theorem claim_C5_empty_request (s : Str) :
    (parse_request s = Except.error ParseError.EmptyRequest ↔ s = []) ∧
    (s ≠ [] → (∀ c ∈ s, char_is_whitespace c = true) →
      parse_request s = Except.error ParseError.MalformedRequestLine) := by
  constructor
  · constructor
    · intro h
      by_contra hs
      rcases parse_request_error_mem hs h with h2 | h2 | h2 <;> exact absurd h2 (by simp)
    · intro h
      rw [h]
      rfl
  · intro hs hws
    have htr : str_trim s = [] := str_trim_of_all_ws hws
    have hl : split_lines s = [[]] := by
      unfold split_lines
      rw [htr]
      rfl
    exact parse_request_error_of_scan hs (scan_request_error_first hl (by rfl))

/-- Claim C5 witness: the empty input fails with `EmptyRequest`, and the
concrete whitespace-only input consisting of one tab fails with
`MalformedRequestLine`. -/
theorem claim_C5_witness :
    parse_request [] = Except.error ParseError.EmptyRequest ∧
    parse_request (strL "\t") = Except.error ParseError.MalformedRequestLine :=
  ⟨(claim_C5_empty_request []).1.mpr rfl,
    (claim_C5_empty_request (strL "\t")).2 (by decide) (by decide)⟩

/-- Claim C6: if the first CRLF-separated line of a non-empty input has
fewer than three space-separated fields, parsing fails with
`MalformedRequestLine`; with three or more fields the first three become
the method, the URL and the HTTP/version field (the latter subject to
the five-character version check). -/
theorem claim_C6_request_line (s first : Str) (rest : List Str)
    (hs : s ≠ []) (hl : split_lines s = first :: rest) :
    ((split_on_space first).length < 3 →
      parse_request s = Except.error ParseError.MalformedRequestLine) ∧
    (∀ p0 p1 p2 ps, split_on_space first = p0 :: p1 :: p2 :: ps →
      parse_first_line first =
        if (str_trim p2).length < 5 then Except.error ParseError.MalformedVersion
        else
          Except.ok (RequestToken.Method (str_trim p0), RequestToken.Url (str_trim p1),
            RequestToken.Version ((str_trim p2).drop 5))) := by
  constructor
  · intro hlen
    exact parse_request_error_of_scan hs
      (scan_request_error_first hl (parse_first_line_short hlen))
  · intro p0 p1 p2 ps hsp
    exact parse_first_line_of_split hsp

/-- Claim C6 witness: the one-line input with only two fields fails with
`MalformedRequestLine`, and on the example line the three fields become
the method, URL and stripped version. -/
theorem claim_C6_witness :
    parse_request (strL "GET /foo") = Except.error ParseError.MalformedRequestLine ∧
    parse_first_line (strL "GET /foo HTTP/1.1") =
      Except.ok (RequestToken.Method (strL "GET"), RequestToken.Url (strL "/foo"),
        RequestToken.Version (strL "1.1")) := by
  constructor
  · exact (claim_C6_request_line (strL "GET /foo") (strL "GET /foo") [] (by decide)
      (by decide)).1 (by decide)
  · have h := (claim_C6_request_line (strL "GET /foo HTTP/1.1") (strL "GET /foo HTTP/1.1")
      [] (by decide) (by decide)).2 (strL "GET") (strL "/foo") (strL "HTTP/1.1") []
      (by decide)
    rw [h]
    decide

/-- Claim C7: a header line without a colon fails with
`MalformedHeaderLine`; otherwise the line is split at its first colon
into a name and a value, each trimmed of surrounding whitespace. -/
theorem claim_C7_header_line (line : Str) :
    ((∀ c ∈ line, c ≠ ':') →
      parse_non_first_line line = Except.error ParseError.MalformedHeaderLine) ∧
    (∀ pre post, line = pre ++ ':' :: post → (∀ c ∈ pre, c ≠ ':') →
      parse_non_first_line line = Except.ok
        (RequestToken.HeaderName (str_trim pre), RequestToken.HeaderValue (str_trim post))) := by
  constructor
  · intro h
    unfold parse_non_first_line
    rw [find_colon_eq_none h]
  · intro pre post hline hpre
    subst hline
    unfold parse_non_first_line
    rw [find_colon_append hpre]
    show Except.ok (RequestToken.HeaderName (str_trim (List.take pre.length (pre ++ ':' :: post))),
      RequestToken.HeaderValue (str_trim (List.drop (pre.length + 1) (pre ++ ':' :: post)))) = _
    have h1 : List.take pre.length (pre ++ ':' :: post) = pre := List.take_left pre _
    have h2 : List.drop (pre.length + 1) (pre ++ ':' :: post) = post := by
      rw [show pre ++ ':' :: post = (pre ++ [':']) ++ post by simp]
      exact List.drop_left' (by simp)
    rw [h1, h2]

/-- Claim C7 witness: a colon-free line fails with `MalformedHeaderLine`,
and the example header line splits at its first colon into trimmed name
and value. -/
theorem claim_C7_witness :
    parse_non_first_line (strL "nocolon") = Except.error ParseError.MalformedHeaderLine ∧
    parse_non_first_line (strL "Host: localhost:8080") = Except.ok
      (RequestToken.HeaderName (strL "Host"), RequestToken.HeaderValue (strL "localhost:8080")) := by
  constructor
  · exact (claim_C7_header_line (strL "nocolon")).1 (by decide)
  · have h := (claim_C7_header_line (strL "Host: localhost:8080")).2
      (strL "Host") (strL " localhost:8080") (by decide) (by decide)
    rw [h]
    decide

/-- Claim C2 counterexample: a request line whose third field does not
begin with "HTTP/" does not fail with `MalformedVersion` — the prefix
content is never checked, only the length; the parse succeeds and the
first five characters are removed blindly. -/
theorem claim_C2_counterexample :
    parse_request (strL "GET /foo ABCDE1.1") =
      Except.ok ⟨strL "GET", strL "/foo", strL "1.1",
        [], [], [], [], [], [], [], [], [], []⟩ := by
  decide

/-- Claim C2 (amended): parsing fails with `MalformedVersion` exactly
when the trimmed third space-separated field of the request line has
fewer than five characters; the "HTTP/" prefix content is not verified,
and whenever the field does begin with "HTTP/" the Request's version
equals the field with that five-character prefix removed. -/
theorem claim_C2_version_field (s first : Str) (rest : List Str) (p0 p1 p2 : Str)
    (ps : List Str) (hs : s ≠ []) (hl : split_lines s = first :: rest)
    (hsp : split_on_space first = p0 :: p1 :: p2 :: ps) :
    ((str_trim p2).length < 5 →
      parse_request s = Except.error ParseError.MalformedVersion) ∧
    (∀ tail r, str_trim p2 = strL "HTTP/" ++ tail →
      parse_request s = Except.ok r → r.version = tail) := by
  constructor
  · intro hlt
    have hf : parse_first_line first = Except.error ParseError.MalformedVersion := by
      rw [parse_first_line_of_split hsp, if_pos hlt]
    exact parse_request_error_of_scan hs (scan_request_error_first hl hf)
  · intro tail r htail hok
    have hge : ¬ (str_trim p2).length < 5 := by
      rw [htail, List.length_append]
      have h5 : (strL "HTTP/").length = 5 := rfl
      omega
    have hf : parse_first_line first =
        Except.ok (RequestToken.Method (str_trim p0), RequestToken.Url (str_trim p1),
          RequestToken.Version ((str_trim p2).drop 5)) := by
      rw [parse_first_line_of_split hsp, if_neg hge]
    have hdrop : (str_trim p2).drop 5 = tail := by
      rw [htail]
      exact List.drop_left' rfl
    obtain ⟨-, first2, rest2, m, u, v, hdrs, hl2, hf2, hh2, hp2, hr⟩ :=
      parse_request_ok_inv hok
    rw [hl] at hl2
    cases hl2
    rw [hf] at hf2
    cases hf2
    rw [hr]
    show (apply_pairs hdrs _).version = tail
    rw [apply_pairs_version hp2]
    exact hdrop

/-- Claim C2 witness: a third field shorter than five characters fails
with `MalformedVersion`, and a field beginning with "HTTP/" yields the
suffix after the prefix as the version. -/
theorem claim_C2_witness :
    parse_request (strL "GET /x HTT") = Except.error ParseError.MalformedVersion ∧
    Request.version ⟨strL "GET", strL "/x", strL "1.9",
      [], [], [], [], [], [], [], [], [], []⟩ = strL "1.9" := by
  constructor
  · exact (claim_C2_version_field (strL "GET /x HTT") (strL "GET /x HTT") []
      (strL "GET") (strL "/x") (strL "HTT") [] (by decide) (by decide) (by decide)).1
      (by decide)
  · exact (claim_C2_version_field (strL "GET /x HTTP/1.9") (strL "GET /x HTTP/1.9") []
      (strL "GET") (strL "/x") (strL "HTTP/1.9") [] (by decide) (by decide)
      (by decide)).2 (strL "1.9")
      ⟨strL "GET", strL "/x", strL "1.9", [], [], [], [], [], [], [], [], [], []⟩
      (by decide) (by decide)

/-! Field-tracking lemmas for the header dispatch. -/

theorem field_for_unrecognized {n : Str} (b : RequestBuilder)
    (h : n ∉ recognized_header_names) : field_for n b = [] := by
  simp only [recognized_header_names, List.mem_cons, List.not_mem_nil, or_false,
    not_or] at h
  obtain ⟨h1, h2, h3, h4, h5, h6, h7, h8, h9, h10⟩ := h
  unfold field_for
  rw [if_neg h1, if_neg h2, if_neg h3, if_neg h4, if_neg h5, if_neg h6, if_neg h7,
    if_neg h8, if_neg h9, if_neg h10]

theorem apply_header_host_of_ne {m : Str} (v : Str) (b : RequestBuilder)
    (h : m ≠ strL "Host") : (apply_header m v b).host = b.host := by
  by_cases hm : m ∈ recognized_header_names
  · rcases mem_recognized_cases hm with rfl | rfl | rfl | rfl | rfl | rfl | rfl | rfl | rfl | rfl <;>
      first | rfl | exact absurd rfl h
  · rw [apply_header_unmatched v b hm]

theorem apply_header_user_agent_of_ne {m : Str} (v : Str) (b : RequestBuilder)
    (h : m ≠ strL "User-Agent") : (apply_header m v b).user_agent = b.user_agent := by
  by_cases hm : m ∈ recognized_header_names
  · rcases mem_recognized_cases hm with rfl | rfl | rfl | rfl | rfl | rfl | rfl | rfl | rfl | rfl <;>
      first | rfl | exact absurd rfl h
  · rw [apply_header_unmatched v b hm]

theorem apply_header_accept_of_ne {m : Str} (v : Str) (b : RequestBuilder)
    (h : m ≠ strL "Accept") : (apply_header m v b).accept = b.accept := by
  by_cases hm : m ∈ recognized_header_names
  · rcases mem_recognized_cases hm with rfl | rfl | rfl | rfl | rfl | rfl | rfl | rfl | rfl | rfl <;>
      first | rfl | exact absurd rfl h
  · rw [apply_header_unmatched v b hm]

theorem apply_header_accept_language_of_ne {m : Str} (v : Str) (b : RequestBuilder)
    (h : m ≠ strL "Accept-Language") :
    (apply_header m v b).accept_language = b.accept_language := by
  by_cases hm : m ∈ recognized_header_names
  · rcases mem_recognized_cases hm with rfl | rfl | rfl | rfl | rfl | rfl | rfl | rfl | rfl | rfl <;>
      first | rfl | exact absurd rfl h
  · rw [apply_header_unmatched v b hm]

theorem apply_header_accept_encoding_of_ne {m : Str} (v : Str) (b : RequestBuilder)
    (h : m ≠ strL "Accept-Encoding") :
    (apply_header m v b).accept_encoding = b.accept_encoding := by
  by_cases hm : m ∈ recognized_header_names
  · rcases mem_recognized_cases hm with rfl | rfl | rfl | rfl | rfl | rfl | rfl | rfl | rfl | rfl <;>
      first | rfl | exact absurd rfl h
  · rw [apply_header_unmatched v b hm]

theorem apply_header_cookie_of_ne {m : Str} (v : Str) (b : RequestBuilder)
    (h : m ≠ strL "Cookie") : (apply_header m v b).cookie = b.cookie := by
  by_cases hm : m ∈ recognized_header_names
  · rcases mem_recognized_cases hm with rfl | rfl | rfl | rfl | rfl | rfl | rfl | rfl | rfl | rfl <;>
      first | rfl | exact absurd rfl h
  · rw [apply_header_unmatched v b hm]

theorem apply_header_connection_of_ne {m : Str} (v : Str) (b : RequestBuilder)
    (h : m ≠ strL "Connection") : (apply_header m v b).connection = b.connection := by
  by_cases hm : m ∈ recognized_header_names
  · rcases mem_recognized_cases hm with rfl | rfl | rfl | rfl | rfl | rfl | rfl | rfl | rfl | rfl <;>
      first | rfl | exact absurd rfl h
  · rw [apply_header_unmatched v b hm]

theorem apply_header_uir_of_ne {m : Str} (v : Str) (b : RequestBuilder)
    (h : m ≠ strL "Upgrade-Insecure-Requests") :
    (apply_header m v b).upgrade_insecure_requests = b.upgrade_insecure_requests := by
  by_cases hm : m ∈ recognized_header_names
  · rcases mem_recognized_cases hm with rfl | rfl | rfl | rfl | rfl | rfl | rfl | rfl | rfl | rfl <;>
      first | rfl | exact absurd rfl h
  · rw [apply_header_unmatched v b hm]

theorem apply_header_referer_of_ne {m : Str} (v : Str) (b : RequestBuilder)
    (h : m ≠ strL "Referer") : (apply_header m v b).referer = b.referer := by
  by_cases hm : m ∈ recognized_header_names
  · rcases mem_recognized_cases hm with rfl | rfl | rfl | rfl | rfl | rfl | rfl | rfl | rfl | rfl <;>
      first | rfl | exact absurd rfl h
  · rw [apply_header_unmatched v b hm]

theorem apply_header_cache_control_of_ne {m : Str} (v : Str) (b : RequestBuilder)
    (h : m ≠ strL "Cache-Control") :
    (apply_header m v b).cache_control = b.cache_control := by
  by_cases hm : m ∈ recognized_header_names
  · rcases mem_recognized_cases hm with rfl | rfl | rfl | rfl | rfl | rfl | rfl | rfl | rfl | rfl <;>
      first | rfl | exact absurd rfl h
  · rw [apply_header_unmatched v b hm]

theorem field_for_apply_header_other {m n : Str} (hmn : m ≠ n) (v : Str)
    (b : RequestBuilder) : field_for n (apply_header m v b) = field_for n b := by
  by_cases hn : n ∈ recognized_header_names
  · rcases mem_recognized_cases hn with rfl | rfl | rfl | rfl | rfl | rfl | rfl | rfl | rfl | rfl
    · exact apply_header_host_of_ne v b hmn
    · exact apply_header_user_agent_of_ne v b hmn
    · exact apply_header_accept_of_ne v b hmn
    · exact apply_header_accept_language_of_ne v b hmn
    · exact apply_header_accept_encoding_of_ne v b hmn
    · exact apply_header_cookie_of_ne v b hmn
    · exact apply_header_connection_of_ne v b hmn
    · exact apply_header_uir_of_ne v b hmn
    · exact apply_header_referer_of_ne v b hmn
    · exact apply_header_cache_control_of_ne v b hmn
  · rw [field_for_unrecognized _ hn, field_for_unrecognized _ hn]

theorem apply_pairs_field_no_name {n : Str} {ts : List RequestToken}
    (hp : HeaderPairs ts) (hn : ∀ m, RequestToken.HeaderName m ∈ ts → m ≠ n)
    (b : RequestBuilder) : field_for n (apply_pairs ts b) = field_for n b := by
  induction hp generalizing b with
  | nil => rfl
  | cons m v h ih =>
    have hm : m ≠ n := hn m (by simp)
    have hrest := ih (fun m2 hm2 =>
      hn m2 (List.mem_cons_of_mem _ (List.mem_cons_of_mem _ hm2))) (apply_header m v b)
    exact hrest.trans (field_for_apply_header_other hm v b)

theorem field_for_first_line_builder (n m u v : Str) :
    field_for n (((RequestBuilder.new.with_method m).with_url u).with_version v) = [] := by
  by_cases hn : n ∈ recognized_header_names
  · rcases mem_recognized_cases hn with rfl | rfl | rfl | rfl | rfl | rfl | rfl | rfl | rfl | rfl <;> rfl
  · exact field_for_unrecognized _ hn

theorem apply_header_empty_noop {n : Str} {b : RequestBuilder}
    (hn : n ∈ recognized_header_names) (hf : field_for n b = []) :
    apply_header n [] b = b := by
  rcases mem_recognized_cases hn with rfl | rfl | rfl | rfl | rfl | rfl | rfl | rfl | rfl | rfl
  · show b.with_host [] = b
    have hb : b.host = [] := hf
    rw [← hb]
    rfl
  · show b.with_user_agent [] = b
    have hb : b.user_agent = [] := hf
    rw [← hb]
    rfl
  · show b.with_accept [] = b
    have hb : b.accept = [] := hf
    rw [← hb]
    rfl
  · show b.with_accept_language [] = b
    have hb : b.accept_language = [] := hf
    rw [← hb]
    rfl
  · show b.with_accept_encoding [] = b
    have hb : b.accept_encoding = [] := hf
    rw [← hb]
    rfl
  · show b.with_cookie [] = b
    have hb : b.cookie = [] := hf
    rw [← hb]
    rfl
  · show b.with_connection [] = b
    have hb : b.connection = [] := hf
    rw [← hb]
    rfl
  · show b.with_upgrade_insecure_requests [] = b
    have hb : b.upgrade_insecure_requests = [] := hf
    rw [← hb]
    rfl
  · show b.with_referer [] = b
    have hb : b.referer = [] := hf
    rw [← hb]
    rfl
  · show b.with_cache_control [] = b
    have hb : b.cache_control = [] := hf
    rw [← hb]
    rfl

theorem scan_header_lines_cons_ok {line n v : Str} (ls : List Str)
    (h : parse_non_first_line line =
      Except.ok (RequestToken.HeaderName n, RequestToken.HeaderValue v)) :
    scan_header_lines (line :: ls) =
      match scan_header_lines ls with
      | Except.error e => Except.error e
      | Except.ok tokens =>
        Except.ok (RequestToken.HeaderName n :: RequestToken.HeaderValue v :: tokens) := by
  have step : scan_header_lines (line :: ls) =
      match parse_non_first_line line with
      | Except.error e => Except.error e
      | Except.ok (name, value) =>
        match scan_header_lines ls with
        | Except.error e => Except.error e
        | Except.ok tokens => Except.ok (name :: value :: tokens) := rfl
  rw [step, h]

/-- Claim C8: a header line with an unrecognized name is discarded:
parsing a request whose line list contains such a line yields the same
result as parsing the request with that line removed. -/
theorem claim_C8_unrecognized_dropped (s1 s2 first : Str) (h1 h2 : List Str)
    (bad n v : Str) (hs1 : s1 ≠ []) (hs2 : s2 ≠ [])
    (hl1 : split_lines s1 = first :: (h1 ++ bad :: h2))
    (hl2 : split_lines s2 = first :: (h1 ++ h2))
    (hb : parse_non_first_line bad =
      Except.ok (RequestToken.HeaderName n, RequestToken.HeaderValue v))
    (hn : n ∉ recognized_header_names) :
    parse_request s1 = parse_request s2 := by
  cases hf : parse_first_line first with
  | error e =>
    rw [parse_request_error_of_scan hs1 (scan_request_error_first hl1 hf),
      parse_request_error_of_scan hs2 (scan_request_error_first hl2 hf)]
  | ok t =>
    obtain ⟨m, u, v0, rfl⟩ := parse_first_line_ok_shape hf
    cases ha : scan_header_lines h1 with
    | error e =>
      have e1 : scan_header_lines (h1 ++ bad :: h2) = Except.error e := by
        rw [scan_header_lines_append, ha]
      have e2 : scan_header_lines (h1 ++ h2) = Except.error e := by
        rw [scan_header_lines_append, ha]
      rw [parse_request_error_of_scan hs1 (scan_request_error_hdrs hl1 hf e1),
        parse_request_error_of_scan hs2 (scan_request_error_hdrs hl2 hf e2)]
    | ok a =>
      cases hh2 : scan_header_lines h2 with
      | error e =>
        have e1 : scan_header_lines (h1 ++ bad :: h2) = Except.error e := by
          rw [scan_header_lines_append, ha, scan_header_lines_cons_ok h2 hb, hh2]
        have e2 : scan_header_lines (h1 ++ h2) = Except.error e := by
          rw [scan_header_lines_append, ha, hh2]
        rw [parse_request_error_of_scan hs1 (scan_request_error_hdrs hl1 hf e1),
          parse_request_error_of_scan hs2 (scan_request_error_hdrs hl2 hf e2)]
      | ok b2 =>
        have t1 : scan_header_lines (h1 ++ bad :: h2) = Except.ok
            (a ++ (RequestToken.HeaderName n :: RequestToken.HeaderValue v :: b2)) := by
          rw [scan_header_lines_append, ha, scan_header_lines_cons_ok h2 hb, hh2]
        have t2 : scan_header_lines (h1 ++ h2) = Except.ok (a ++ b2) := by
          rw [scan_header_lines_append, ha, hh2]
        rw [parse_request_ok_eq hs1 hl1 hf t1, parse_request_ok_eq hs2 hl2 hf t2]
        have hpa := scan_header_lines_pairs ha
        rw [apply_pairs_append hpa, apply_pairs_append hpa]
        show Except.ok (RequestBuilder.create (apply_pairs b2
          (apply_header n v (apply_pairs a _)))) = _
        rw [apply_header_unmatched v _ hn]

/-- Claim C8 witness: the example request with an X-Custom header parses
to the same result as the same request without that line. -/
theorem claim_C8_witness :
    parse_request (strL "GET / HTTP/1.1\r\nX-Custom: 1\r\nHost: h") =
      parse_request (strL "GET / HTTP/1.1\r\nHost: h") :=
  claim_C8_unrecognized_dropped _ _ (strL "GET / HTTP/1.1") [] [strL "Host: h"]
    (strL "X-Custom: 1") (strL "X-Custom") (strL "1") (by decide) (by decide)
    (by decide) (by decide) (by decide) (by decide)

/-- Claim C10: a recognized header whose value trims to empty sets the
corresponding field to the empty string, the same value the field has
when the header is absent: provided no earlier header line carries the
same name, parsing a request with such a line yields the same result as
parsing the request with the line removed. -/
theorem claim_C10_empty_value (s1 s2 first : Str) (h1 h2 : List Str) (l n : Str)
    (hs1 : s1 ≠ []) (hs2 : s2 ≠ [])
    (hl1 : split_lines s1 = first :: (h1 ++ l :: h2))
    (hl2 : split_lines s2 = first :: (h1 ++ h2))
    (hpl : parse_non_first_line l =
      Except.ok (RequestToken.HeaderName n, RequestToken.HeaderValue []))
    (hn : n ∈ recognized_header_names)
    (hprev : ∀ l2 ∈ h1, ∀ n2 v2, parse_non_first_line l2 =
      Except.ok (RequestToken.HeaderName n2, RequestToken.HeaderValue v2) → n2 ≠ n) :
    parse_request s1 = parse_request s2 := by
  cases hf : parse_first_line first with
  | error e =>
    rw [parse_request_error_of_scan hs1 (scan_request_error_first hl1 hf),
      parse_request_error_of_scan hs2 (scan_request_error_first hl2 hf)]
  | ok t =>
    obtain ⟨m, u, v0, rfl⟩ := parse_first_line_ok_shape hf
    cases ha : scan_header_lines h1 with
    | error e =>
      have e1 : scan_header_lines (h1 ++ l :: h2) = Except.error e := by
        rw [scan_header_lines_append, ha]
      have e2 : scan_header_lines (h1 ++ h2) = Except.error e := by
        rw [scan_header_lines_append, ha]
      rw [parse_request_error_of_scan hs1 (scan_request_error_hdrs hl1 hf e1),
        parse_request_error_of_scan hs2 (scan_request_error_hdrs hl2 hf e2)]
    | ok a =>
      cases hh2 : scan_header_lines h2 with
      | error e =>
        have e1 : scan_header_lines (h1 ++ l :: h2) = Except.error e := by
          rw [scan_header_lines_append, ha, scan_header_lines_cons_ok h2 hpl, hh2]
        have e2 : scan_header_lines (h1 ++ h2) = Except.error e := by
          rw [scan_header_lines_append, ha, hh2]
        rw [parse_request_error_of_scan hs1 (scan_request_error_hdrs hl1 hf e1),
          parse_request_error_of_scan hs2 (scan_request_error_hdrs hl2 hf e2)]
      | ok b2 =>
        have t1 : scan_header_lines (h1 ++ l :: h2) = Except.ok
            (a ++ (RequestToken.HeaderName n :: RequestToken.HeaderValue [] :: b2)) := by
          rw [scan_header_lines_append, ha, scan_header_lines_cons_ok h2 hpl, hh2]
        have t2 : scan_header_lines (h1 ++ h2) = Except.ok (a ++ b2) := by
          rw [scan_header_lines_append, ha, hh2]
        rw [parse_request_ok_eq hs1 hl1 hf t1, parse_request_ok_eq hs2 hl2 hf t2]
        have hpa := scan_header_lines_pairs ha
        rw [apply_pairs_append hpa, apply_pairs_append hpa]
        show Except.ok (RequestBuilder.create (apply_pairs b2
          (apply_header n [] (apply_pairs a _)))) = _
        have hnames : ∀ m2, RequestToken.HeaderName m2 ∈ a → m2 ≠ n := by
          intro m2 hm2
          obtain ⟨line2, hline2, v2, hpv⟩ := scan_header_lines_name_src ha hm2
          exact hprev line2 hline2 m2 v2 hpv
        have hfield : field_for n (apply_pairs a
            (((RequestBuilder.new.with_method m).with_url u).with_version v0)) = [] := by
          rw [apply_pairs_field_no_name hpa hnames]
          exact field_for_first_line_builder n m u v0
        rw [apply_header_empty_noop hn hfield]

/-- Claim C10 witness: the request with the value-less Host header parses
to the same result as the request without it. -/
theorem claim_C10_witness :
    parse_request (strL "GET / HTTP/1.1\r\nHost:") =
      parse_request (strL "GET / HTTP/1.1") :=
  claim_C10_empty_value _ _ (strL "GET / HTTP/1.1") [] [] (strL "Host:") (strL "Host")
    (by decide) (by decide) (by decide) (by decide) (by decide) (by decide) (by simp)

/-! Invariant machinery for the ten header fields. -/

theorem header_fields_ok_first_line {P : Str → Prop} (hP : P []) (m u v : Str) :
    header_fields_ok P (((RequestBuilder.new.with_method m).with_url u).with_version v) :=
  ⟨hP, hP, hP, hP, hP, hP, hP, hP, hP, hP⟩

theorem header_fields_ok_apply {P : Str → Prop} {b : RequestBuilder} {n v : Str}
    (hb : header_fields_ok P b) (hv : P v) : header_fields_ok P (apply_header n v b) := by
  obtain ⟨p1, p2, p3, p4, p5, p6, p7, p8, p9, p10⟩ := hb
  by_cases hn : n ∈ recognized_header_names
  · rcases mem_recognized_cases hn with rfl | rfl | rfl | rfl | rfl | rfl | rfl | rfl | rfl | rfl
    · exact ⟨hv, p2, p3, p4, p5, p6, p7, p8, p9, p10⟩
    · exact ⟨p1, hv, p3, p4, p5, p6, p7, p8, p9, p10⟩
    · exact ⟨p1, p2, hv, p4, p5, p6, p7, p8, p9, p10⟩
    · exact ⟨p1, p2, p3, p4, hv, p6, p7, p8, p9, p10⟩
    · exact ⟨p1, p2, p3, p4, p5, hv, p7, p8, p9, p10⟩
    · exact ⟨p1, p2, p3, p4, p5, p6, hv, p8, p9, p10⟩
    · exact ⟨p1, p2, p3, p4, p5, p6, p7, hv, p9, p10⟩
    · exact ⟨p1, p2, p3, hv, p5, p6, p7, p8, p9, p10⟩
    · exact ⟨p1, p2, p3, p4, p5, p6, p7, p8, hv, p10⟩
    · exact ⟨p1, p2, p3, p4, p5, p6, p7, p8, p9, hv⟩
  · rw [apply_header_unmatched v b hn]
    exact ⟨p1, p2, p3, p4, p5, p6, p7, p8, p9, p10⟩

theorem header_fields_ok_pairs {P : Str → Prop} {ts : List RequestToken}
    (hp : HeaderPairs ts) (hv : ∀ w, RequestToken.HeaderValue w ∈ ts → P w)
    {b : RequestBuilder} (hb : header_fields_ok P b) :
    header_fields_ok P (apply_pairs ts b) := by
  induction hp generalizing b with
  | nil => exact hb
  | cons n v h ih =>
    exact ih (fun w hw => hv w (List.mem_cons_of_mem _ (List.mem_cons_of_mem _ hw)))
      (header_fields_ok_apply hb (hv v (by simp)))

/-- Claim C3 counterexample: a successfully parsed Request can have an
empty url and an empty version — two consecutive spaces give an empty
second field and a five-character third field strips to nothing, yet the
parse succeeds. -/
theorem claim_C3_counterexample :
    parse_request (strL "GET  HTTP/") =
      Except.ok ⟨strL "GET", [], [], [], [], [], [], [], [], [], [], [], []⟩ := by
  decide

/-- Claim C3 (amended): in every Request returned by a successful parse
the method is a non-empty string (url and version, however, may be
empty), and each of the ten header fields is either the empty string or
the exact whitespace-trimmed value of a header line of the input. -/
theorem claim_C3_invariants (s : Str) (r : Request)
    (h : parse_request s = Except.ok r) :
    r.method ≠ [] ∧
    from_line_value (split_lines s).tail r.host ∧
    from_line_value (split_lines s).tail r.user_agent ∧
    from_line_value (split_lines s).tail r.accept ∧
    from_line_value (split_lines s).tail r.upgrade_insecure_requests ∧
    from_line_value (split_lines s).tail r.accept_language ∧
    from_line_value (split_lines s).tail r.accept_encoding ∧
    from_line_value (split_lines s).tail r.cookie ∧
    from_line_value (split_lines s).tail r.connection ∧
    from_line_value (split_lines s).tail r.referer ∧
    from_line_value (split_lines s).tail r.cache_control := by
  obtain ⟨hs, first, rest, m, u, v, hdrs, hl, hf, hh, hp, hr⟩ := parse_request_ok_inv h
  have hts : str_trim s ≠ [] := by
    intro h0
    have hsl : split_lines s = [[]] := by
      unfold split_lines
      rw [h0]
      rfl
    rw [hsl] at hl
    cases hl
    rw [show parse_first_line [] = Except.error ParseError.MalformedRequestLine from rfl] at hf
    exact absurd hf (by simp)
  obtain ⟨c, t, hct⟩ := List.exists_cons_of_ne_nil hts
  have hcws : char_is_whitespace c = false := str_trim_head_false hct
  have hcr : c ≠ ('\r' : Char) := by
    intro he
    rw [he] at hcws
    exact absurd hcws (by decide)
  obtain ⟨g, gs, hsplit⟩ := split_on_crlf_cons_of_ne t hcr
  have hlines : split_lines s = (c :: g) :: gs := by
    unfold split_lines
    rw [hct]
    exact hsplit
  rw [hlines] at hl
  cases hl
  have hcsp : c ≠ (' ' : Char) := by
    intro he
    rw [he] at hcws
    exact absurd hcws (by decide)
  obtain ⟨g0, gs0, hsp⟩ := split_on_space_cons_of_ne g hcsp
  have hm : m = str_trim (c :: g0) := by
    rcases gs0 with _ | ⟨p1, _ | ⟨p2, ps⟩⟩
    · have := @parse_first_line_short (c :: g) (by rw [hsp]; simp)
      rw [this] at hf
      exact absurd hf (by simp)
    · have := @parse_first_line_short (c :: g) (by rw [hsp]; simp)
      rw [this] at hf
      exact absurd hf (by simp)
    · rw [parse_first_line_of_split hsp] at hf
      by_cases hlen : (str_trim p2).length < 5
      · rw [if_pos hlen] at hf
        exact absurd hf (by simp)
      · rw [if_neg hlen] at hf
        simp only [Except.ok.injEq, Prod.mk.injEq, RequestToken.Method.injEq,
          RequestToken.Url.injEq, RequestToken.Version.injEq] at hf
        exact hf.1.symm
  have hmethod : r.method = m := by
    rw [hr]
    show (apply_pairs hdrs _).method = m
    rw [apply_pairs_method hp]
    rfl
  have hvalues : ∀ w, RequestToken.HeaderValue w ∈ hdrs →
      from_line_value (split_lines s).tail w := by
    intro w hw
    obtain ⟨line2, hline2, nm2, hpv⟩ := scan_header_lines_value_src hh hw
    right
    exact ⟨line2, by rw [hlines]; exact hline2, nm2, hpv⟩
  have hfields := header_fields_ok_pairs hp hvalues
    (header_fields_ok_first_line (Or.inl rfl) m u v)
  refine ⟨?_, ?_, ?_, ?_, ?_, ?_, ?_, ?_, ?_, ?_, ?_⟩
  · rw [hmethod, hm]
    exact str_trim_cons_ne_nil g0 hcws
  · rw [hr]; exact hfields.1
  · rw [hr]; exact hfields.2.1
  · rw [hr]; exact hfields.2.2.1
  · rw [hr]; exact hfields.2.2.2.1
  · rw [hr]; exact hfields.2.2.2.2.1
  · rw [hr]; exact hfields.2.2.2.2.2.1
  · rw [hr]; exact hfields.2.2.2.2.2.2.1
  · rw [hr]; exact hfields.2.2.2.2.2.2.2.1
  · rw [hr]; exact hfields.2.2.2.2.2.2.2.2.1
  · rw [hr]; exact hfields.2.2.2.2.2.2.2.2.2

/-- Claim C3 witness: on the example request the parsed method is
non-empty and the host field is the exact trimmed value of a header line
of the input. -/
theorem claim_C3_witness :
    (⟨strL "GET", strL "/foo", strL "1.1", strL "localhost:8080",
      [], [], [], [], [], [], [], [], []⟩ : Request).method ≠ [] ∧
    from_line_value
      (split_lines (strL "GET /foo HTTP/1.1\r\nHost: localhost:8080\r\n\r\n")).tail
      (strL "localhost:8080") := by
  have h := claim_C3_invariants (strL "GET /foo HTTP/1.1\r\nHost: localhost:8080\r\n\r\n")
    ⟨strL "GET", strL "/foo", strL "1.1", strL "localhost:8080",
      [], [], [], [], [], [], [], [], []⟩ (by decide)
  exact ⟨h.1, h.2.1⟩

end Webserver
